import Mathlib

/-!
Verification of the USDC treasury automation tool (scripts/cctp.py,
scripts/reconcile.py, scripts/treasury.py, scripts/db.py) against its
natural-language specification.

The Python code is shallowly embedded: every effectful operation is a pure
Lean function from an explicit environment (chain responses, oracle
responses) and an explicit store to a result, a trace of side effects
(RPC calls, transaction submissions, database writes) and the new store.
Machine integers are modelled as `Nat`/`Int`; Python `Decimal` values as
`Rat`; byte strings as `List Nat`; fallible code returns `Except`.
-/

namespace USDCTreasury

/-- Python `int(Decimal(...))`: truncation toward zero. -/
def pyInt (q : Rat) : Int := if 0 ≤ q then ⌊q⌋ else ⌈q⌉

/-- A CCTP bridge record, one row of the `cctp_bridges` table
(db.py `insert_bridge` columns). -/
structure BridgeRecord where
  burn_tx_hash : String
  source_chain : String
  dest_chain : String
  amount_usdc : Rat
  recipient : String
  message_hash : Option String
  message_bytes : Option (List Nat)
  attestation : Option (List Nat)
  mint_tx_hash : Option String
  status : String
deriving Repr, DecidableEq

/-- A ledger entry written through treasury.py `record_transaction`
(the fields the claims are about). -/
structure TxRecord where
  tx_hash : String
  chain : String
  tx_type : String
  category : String
  status : String
  amount_usdc : Rat
deriving Repr, DecidableEq

/-- Result dictionary of cctp.py `receive_message`. -/
structure MintResult where
  tx_hash : String
  block_number : Nat
  gas_used : Nat
deriving Repr, DecidableEq

/-- Python exceptions raised by the bridge code, one constructor per
distinct `raise` site / semantic error of the spec taxonomy. -/
inductive BridgeError where
  /-- `ValueError("Source and destination chains must be different")` -/
  | validation : BridgeError
  /-- `ValueError("Insufficient USDC on ...")` -/
  | insufficientBalance : BridgeError
  /-- `RuntimeError("Approval failed: ...")` -/
  | approvalFailed : BridgeError
  /-- `RuntimeError("depositForBurn failed: ...")` -/
  | burnFailed : BridgeError
  /-- `ValueError("Bridge with burn tx ... not found in database")` -/
  | notFound : BridgeError
  /-- `RuntimeError("Attestation not available after ...s")` -/
  | attestationTimeout : BridgeError
  /-- `RuntimeError("Message nonce already used on ...")` -/
  | alreadyCompleted : BridgeError
  /-- `RuntimeError("receiveMessage failed on ...")` -/
  | receiveFailed : BridgeError
  /-- `ValueError("No stored attestation for bridge ...")` -/
  | noStoredAttestation : BridgeError
deriving Repr, DecidableEq

/-- Observable side effects of a bridge operation: read-only RPC or HTTP
calls, signed transaction submissions, and database writes. -/
inductive Effect where
  | rpc : String → Effect
  | httpGet : String → Effect
  | submitTx : String → String → Effect
  | insertBridge : BridgeRecord → Effect
  | recordTx : TxRecord → Effect
deriving Repr, DecidableEq

/-- Is this effect a signed on-chain transaction submission? -/
def Effect.isSubmit : Effect → Bool
  | .submitTx _ _ => true
  | _ => false

/-- The `cctp_bridges` table, keyed by `burn_tx_hash`. -/
abbrev BridgeStore := List BridgeRecord

/-- db.py `get_bridge`: row lookup by burn tx hash. -/
def get_bridge (store : BridgeStore) (burn_tx_hash : String) : Option BridgeRecord :=
  store.find? (fun b => b.burn_tx_hash == burn_tx_hash)

/-- db.py `update_bridge`: `UPDATE cctp_bridges SET ... WHERE burn_tx_hash = ?`,
with the column updates expressed as a record transformer. -/
def update_bridge (store : BridgeStore) (burn_tx_hash : String)
    (f : BridgeRecord → BridgeRecord) : BridgeStore :=
  store.map (fun b => if b.burn_tx_hash == burn_tx_hash then f b else b)

/-- db.py `insert_bridge` (`INSERT OR REPLACE`). -/
def insert_bridge (store : BridgeStore) (b : BridgeRecord) : BridgeStore :=
  if (store.find? (fun x => x.burn_tx_hash == b.burn_tx_hash)).isSome then
    update_bridge store b.burn_tx_hash (fun _ => b)
  else
    store ++ [b]

/-- Responses of the destination chain consumed by `receive_message`:
the keccak hash provided by the web3 library, the message transmitter's
`usedNonces` view (which may fail), and the receipt of a submitted
`receiveMessage` transaction. -/
structure ChainEnv where
  keccak : List Nat → List Nat
  usedNonces : List Nat → Except String Nat
  receiptStatus : Nat
  txHash : String
  blockNumber : Nat
  gasUsed : Nat

/-- cctp.py `_extract_nonce_from_message`: `None` for messages shorter
than 20 bytes, otherwise the keccak of the whole message. -/
def _extract_nonce_from_message (keccak : List Nat → List Nat)
    (message_bytes : List Nat) : Option (List Nat) :=
  if message_bytes.length < 20 then none
  else some (keccak message_bytes)

/-- cctp.py `is_nonce_used`: query `usedNonces`; a non-zero result means
the nonce was consumed; any exception is swallowed and reported as
`False` ("if we can't check, assume not used"). -/
def is_nonce_used (usedNonces : List Nat → Except String Nat)
    (nonce_hash : List Nat) : Bool :=
  match usedNonces nonce_hash with
  | .ok r => r != 0
  | .error _ => false

/-- cctp.py `receive_message`: idempotency check (skip when no nonce can
be derived), then build, sign and submit the `receiveMessage` transaction
and wait for its receipt. -/
def receive_message (env : ChainEnv) (dest_chain : String)
    (message_bytes attestation : List Nat) :
    Except BridgeError MintResult × List Effect :=
  let nonce_hash := _extract_nonce_from_message env.keccak message_bytes
  let checkEffs : List Effect :=
    match nonce_hash with
    | some _ => [.rpc "usedNonces"]
    | none => []
  let guardTripped : Bool :=
    match nonce_hash with
    | some nh => is_nonce_used env.usedNonces nh
    | none => false
  if guardTripped then
    (.error .alreadyCompleted, checkEffs)
  else
    let _ := attestation
    let effs := checkEffs ++
      [.rpc "getBlockLatest", .rpc "getTransactionCount",
       .submitTx dest_chain "receiveMessage", .rpc "waitForTransactionReceipt"]
    if env.receiptStatus != 1 then
      (.error .receiveFailed, effs)
    else
      (.ok ⟨env.txHash, env.blockNumber, env.gasUsed⟩, effs)

/-- Oracle responses consumed when resuming a bridge: the result of
`wait_for_attestation_v2` (message and attestation, or `none` on
timeout), the result of the legacy `wait_for_attestation` V1 poll, and
the destination-chain environment for the mint. -/
structure CompleteEnv where
  pollV2 : Option (List Nat × List Nat)
  pollV1 : Option (List Nat)
  chain : ChainEnv

/-- cctp.py `complete_bridge`: load the record; early-return when already
completed; otherwise poll for the attestation if it is not stored (V2 by
tx hash, falling back to V1 by message hash for old records), persist it,
mint via `receive_message`, and persist the completion.  Polling waits
are abstracted into `env`. -/
def complete_bridge (env : CompleteEnv) (store : BridgeStore)
    (burn_tx_hash : String) :
    Except BridgeError BridgeRecord × List Effect × BridgeStore :=
  match get_bridge store burn_tx_hash with
  | none => (.error .notFound, [], store)
  | some bridge =>
    if bridge.status == "completed" then
      (.ok bridge, [], store)
    else
      -- Step 1: get attestation if we don't have it
      let step1 : (Option (List Nat) × Option (List Nat)) × List Effect :=
        match bridge.attestation with
        | some att => ((bridge.message_bytes, some att), [])
        | none =>
          match env.pollV2 with
          | some (m, a) => ((some m, some a), [.httpGet "attestationV2"])
          | none =>
            if bridge.message_hash.isSome then
              match env.pollV1 with
              | some a =>
                ((bridge.message_bytes, some a),
                 [.httpGet "attestationV2", .httpGet "attestationV1"])
              | none =>
                ((bridge.message_bytes, none),
                 [.httpGet "attestationV2", .httpGet "attestationV1"])
            else ((none, none), [.httpGet "attestationV2"])
      let message_bytes := step1.1.1
      let attestation := step1.1.2
      let effs := step1.2
      match attestation with
      | none =>
        (.error .attestationTimeout, effs,
         update_bridge store burn_tx_hash
           (fun b => { b with status := "awaiting_attestation" }))
      | some att =>
        let store :=
          if bridge.attestation.isSome then store
          else
            update_bridge store burn_tx_hash
              (fun b => { b with attestation := some att,
                                 message_bytes := message_bytes,
                                 status := "attestation_received" })
        -- Step 2: call receiveMessage on the destination chain
        match message_bytes with
        | none =>
          -- Python would crash decoding `None`; no claim depends on this path
          (.error .receiveFailed, effs, store)
        | some msg =>
          let rm := receive_message env.chain bridge.dest_chain msg att
          match rm.1 with
          | .error e => (.error e, effs ++ rm.2, store)
          | .ok mint =>
            let store := update_bridge store burn_tx_hash
              (fun b => { b with mint_tx_hash := some mint.tx_hash,
                                 status := "completed" })
            let mintRec : TxRecord :=
              { tx_hash := mint.tx_hash, chain := bridge.dest_chain,
                tx_type := "cctp_mint", category := "bridging_fees",
                status := "confirmed", amount_usdc := bridge.amount_usdc }
            (.ok { bridge with mint_tx_hash := some mint.tx_hash,
                               status := "completed" },
             effs ++ rm.2 ++ [.recordTx mintRec], store)

/-- cctp.py `retry_mint`: like `complete_bridge` but requires the
attestation and message bytes to already be stored (no re-polling). -/
def retry_mint (env : ChainEnv) (store : BridgeStore)
    (burn_tx_hash : String) :
    Except BridgeError BridgeRecord × List Effect × BridgeStore :=
  match get_bridge store burn_tx_hash with
  | none => (.error .notFound, [], store)
  | some bridge =>
    if bridge.status == "completed" then
      (.ok bridge, [], store)
    else
      match bridge.attestation, bridge.message_bytes with
      | some att, some msg =>
        let rm := receive_message env bridge.dest_chain msg att
        match rm.1 with
        | .error e => (.error e, rm.2, store)
        | .ok mint =>
          let store := update_bridge store burn_tx_hash
            (fun b => { b with mint_tx_hash := some mint.tx_hash,
                               status := "completed" })
          let mintRec : TxRecord :=
            { tx_hash := mint.tx_hash, chain := bridge.dest_chain,
              tx_type := "cctp_mint", category := "bridging_fees",
              status := "confirmed", amount_usdc := bridge.amount_usdc }
          (.ok { bridge with mint_tx_hash := some mint.tx_hash,
                             status := "completed" },
           rm.2 ++ [.recordTx mintRec], store)
      | _, _ => (.error .noStoredAttestation, [], store)

/-- Source-chain responses and oracle responses consumed by
`bridge_usdc`: token decimals, wallet balance, current allowance, the
fee-API answer (`none` when the HTTP query fails, otherwise the reported
fast `maxFee` field), receipts for the approval and burn submissions,
the attestation poll result and the destination-chain environment. -/
structure BridgeEnv where
  decimals : Nat
  balance : Nat
  allowance : Nat
  feeQuery : Option Int
  approveStatus : Nat
  burnStatus : Nat
  burnTxHash : String
  burnBlockNumber : Nat
  burnGasUsed : Nat
  pollV2 : Option (List Nat × List Nat)
  dest : ChainEnv

/-- Result dictionary of cctp.py `bridge_usdc` (the fields the claims
are about). -/
structure BridgeResult where
  source_chain : String
  dest_chain : String
  amount_usdc : Rat
  recipient : String
  burn_tx_hash : String
  fast : Bool
  max_fee : Int
  status : String
  mint_tx_hash : Option String
  mint_error : Option BridgeError
deriving Repr, DecidableEq

/-- Fast-mode default maxFee: `max(int(amount_raw * 20 / 10000), 1)` —
0.2% of the raw amount, at least 1. -/
def defaultFastFee (amount_raw : Int) : Int :=
  max (pyInt ((amount_raw * 20 : Rat) / 10000)) 1

/-- Fast-mode maxFee selection from the fee-API answer: the reported
value when positive, the 0.2% default otherwise (also on query
failure). -/
def fastMaxFee (env : BridgeEnv) (amount_raw : Int) : Int :=
  match env.feeQuery with
  | some bps => if bps > 0 then bps else defaultFastFee amount_raw
  | none => defaultFastFee amount_raw

/-- Effect trace of the approval step when the allowance is
insufficient: fee estimation and nonce lookup, an optional
reset-to-zero approval (when the current allowance is non-zero), then
the infinite approval. -/
def approvalEffects (env : BridgeEnv) (source_chain : String) : List Effect :=
  [.rpc "getBlockLatest", .rpc "getTransactionCount"] ++
  (if env.allowance > 0 then
    [.rpc "estimateGas", .submitTx source_chain "approveZero",
     .rpc "waitForTransactionReceipt"]
  else []) ++
  [.rpc "estimateGas", .submitTx source_chain "approveMax",
   .rpc "waitForTransactionReceipt"]

/-- Effect trace of the `depositForBurn` submission. -/
def burnEffects (source_chain : String) : List Effect :=
  [.rpc "getBlockLatest", .rpc "getTransactionCount", .rpc "estimateGas",
   .submitTx source_chain "depositForBurn", .rpc "waitForTransactionReceipt"]

/-- Steps 3–4 of cctp.py `bridge_usdc`, entered only after the burn
receipt succeeded: persist the `BridgeRecord` and the burn
`TransactionRecord`, poll for the attestation, and attempt the mint
(whose failure is caught: the result is returned with
`status = attestation_received` and the error recorded, mirroring the
`try/except` around `receive_message`). -/
def bridge_usdc_post_burn (env : BridgeEnv) (store : BridgeStore)
    (source_chain dest_chain : String) (amount_usdc : Rat)
    (recipient : String) (fast : Bool) (max_fee : Int) :
    Except BridgeError BridgeResult × List Effect × BridgeStore :=
  let burn_tx_hash := env.burnTxHash
  let rec0 : BridgeRecord :=
    { burn_tx_hash := burn_tx_hash, source_chain := source_chain,
      dest_chain := dest_chain, amount_usdc := amount_usdc,
      recipient := recipient, message_hash := none,
      message_bytes := none, attestation := none,
      mint_tx_hash := none, status := "burn_confirmed" }
  let store := insert_bridge store rec0
  let burnRec : TxRecord :=
    { tx_hash := burn_tx_hash, chain := source_chain,
      tx_type := "cctp_bridge", category := "bridging_fees",
      status := "burn_confirmed", amount_usdc := amount_usdc }
  let effs : List Effect :=
    [.insertBridge rec0, .recordTx burnRec, .httpGet "attestationV2"]
  let mkResult : String → Option String → Option BridgeError → BridgeResult :=
    fun status mint e =>
      { source_chain := source_chain, dest_chain := dest_chain,
        amount_usdc := amount_usdc, recipient := recipient,
        burn_tx_hash := burn_tx_hash, fast := fast,
        max_fee := max_fee, status := status,
        mint_tx_hash := mint, mint_error := e }
  match env.pollV2 with
  | none =>
    (.ok (mkResult "awaiting_attestation" none none), effs, store)
  | some (m, a) =>
    let store := update_bridge store burn_tx_hash
      (fun b => { b with attestation := some a,
                         message_bytes := some m,
                         status := "attestation_received" })
    let rm := receive_message env.dest dest_chain m a
    let effs := effs ++ rm.2
    match rm.1 with
    | .error e =>
      (.ok (mkResult "attestation_received" none (some e)), effs, store)
    | .ok mint =>
      let store := update_bridge store burn_tx_hash
        (fun b => { b with mint_tx_hash := some mint.tx_hash,
                           status := "completed" })
      let mintRec : TxRecord :=
        { tx_hash := mint.tx_hash, chain := dest_chain,
          tx_type := "cctp_mint", category := "bridging_fees",
          status := "confirmed", amount_usdc := amount_usdc }
      (.ok (mkResult "completed" (some mint.tx_hash) none),
       effs ++ [.recordTx mintRec], store)

/-- cctp.py `bridge_usdc`: validate that the chains differ, scale the
amount by the token's decimals, check the balance, (fast mode) query
fees, ensure a sufficient allowance (infinite-approval pattern,
resetting a non-zero allowance to zero first), submit `depositForBurn`,
then `bridge_usdc_post_burn`.  Transaction-call arguments are not
tracked in the effect trace, only which call was submitted. -/
def bridge_usdc (env : BridgeEnv) (store : BridgeStore)
    (source_chain dest_chain : String) (amount_usdc : Rat)
    (recipient : String) (fast : Bool) (max_fee : Int) :
    Except BridgeError BridgeResult × List Effect × BridgeStore :=
  if source_chain == dest_chain then
    (.error .validation, [], store)
  else
    let amount_raw : Int := pyInt (amount_usdc * ((10 : Rat) ^ env.decimals))
    if (env.balance : Int) < amount_raw then
      (.error .insufficientBalance, [.rpc "decimals", .rpc "balanceOf"], store)
    else
      let max_fee := if fast then fastMaxFee env amount_raw else max_fee
      let preEffs : List Effect :=
        [.rpc "decimals", .rpc "balanceOf"] ++
        (if fast then [.httpGet "bridgeFees"] else []) ++ [.rpc "allowance"]
      let approval : List Effect × Bool :=
        if (env.allowance : Int) < amount_raw then
          (preEffs ++ approvalEffects env source_chain, env.approveStatus == 1)
        else (preEffs, true)
      if !approval.2 then
        (.error .approvalFailed, approval.1, store)
      else
        let effs := approval.1 ++ burnEffects source_chain
        if env.burnStatus != 1 then
          (.error .burnFailed, effs, store)
        else
          let post := bridge_usdc_post_burn env store source_chain dest_chain
            amount_usdc recipient fast max_fee
          (post.1, effs ++ post.2.1, post.2.2)

/-! ### Attestation polling backoff (cctp.py `wait_for_attestation_v2`) -/

/-- The base delays used for the successive waits of the attestation
poll loop, given which failed attempts were rate-limited (`true` = HTTP
429).  Per attempt: a 429 first triples the delay (capped at 120 s); the
wait then uses the current delay; after the wait the delay doubles
(capped at 60 s).  The first argument is the current delay state. -/
def attestationDelaysAux : Nat → List Bool → List Nat
  | _, [] => []
  | d, rateLimited :: rest =>
    let used := if rateLimited then min (d * 3) 120 else d
    used :: attestationDelaysAux (min (used * 2) 60) rest

/-- Base delays of `wait_for_attestation_v2` starting from the initial
`base_delay = 2`. -/
def attestationDelays (outcomes : List Bool) : List Nat :=
  attestationDelaysAux 2 outcomes

/-- The actual sleep of one poll iteration:
`sleep_time = delay + random.uniform(0, delay * 0.3)`, with the sampled
jitter made explicit. -/
def sleepTime (delay : Nat) (jitter : Rat) : Rat := (delay : Rat) + jitter

/-! ### Reconciliation scanner (reconcile.py) -/

/-- Default lookback for a first run with no high-water mark. -/
def DEFAULT_FIRST_RUN_LOOKBACK : Nat := 10000

/-- A raw ERC-20 `Transfer` event as returned by the event filter
(`from`/`to` renamed: they are Lean keywords). -/
structure TransferEvent where
  tx_hash : String
  sender : String
  receiver : String
  value : Nat
  blockNumber : Nat
deriving Repr, DecidableEq

/-- A transfer record normalized by `fetch_onchain_usdc_transfers`. -/
structure OnchainTransfer where
  tx_hash : String
  chain : String
  direction : String
  sender : String
  receiver : String
  amount_usdc : Rat
  amount_raw : Nat
  block_number : Nat
deriving Repr, DecidableEq

/-- Chain responses consumed by one scan: the current head, token
decimals, the full event history for the wallet in each direction, and
whether each direction's event query raises. -/
structure ScanEnv where
  current_block : Nat
  decimals : Nat
  outgoingEvents : List TransferEvent
  incomingEvents : List TransferEvent
  outgoingFails : Bool
  incomingFails : Bool

/-- Normalization of one event (timestamp resolution omitted: it does
not affect any claim). -/
def normalizeEvent (chain direction : String) (decimals : Nat)
    (e : TransferEvent) : OnchainTransfer :=
  { tx_hash := e.tx_hash, chain := chain, direction := direction,
    sender := e.sender, receiver := e.receiver,
    amount_usdc := (e.value : Rat) / (10 : Rat) ^ decimals,
    amount_raw := e.value, block_number := e.blockNumber }

/-- reconcile.py `fetch_onchain_usdc_transfers`: pick the scan start
(explicit override, else mark + 1, else bounded lookback), return empty
beyond the head, query both directions (a failing query is logged and
skipped), and store `max(max_block_seen, current_block)` as the new mark
whenever `update_hwm` and `max_block_seen >= scan_from`.  Returns the
transfers and the stored mark after the call. -/
def fetch_onchain_usdc_transfers (env : ScanEnv) (chain_key : String)
    (hwm : Option Nat) (from_block : Option Nat) (update_hwm : Bool) :
    List OnchainTransfer × Option Nat :=
  let scan_from : Nat :=
    match from_block with
    | some fb => fb
    | none =>
      match hwm with
      | some h => h + 1
      | none => env.current_block - DEFAULT_FIRST_RUN_LOOKBACK
  if scan_from > env.current_block then
    ([], hwm)
  else
    let outEvents :=
      if env.outgoingFails then []
      else env.outgoingEvents.filter (fun e => scan_from ≤ e.blockNumber)
    let inEvents :=
      if env.incomingFails then []
      else env.incomingEvents.filter (fun e => scan_from ≤ e.blockNumber)
    let transfers :=
      outEvents.map (normalizeEvent chain_key "outgoing" env.decimals) ++
      inEvents.map (normalizeEvent chain_key "incoming" env.decimals)
    let max_block_seen :=
      ((outEvents ++ inEvents).map (fun e => e.blockNumber)).foldl max scan_from
    let hwmAfter :=
      if update_hwm && decide (scan_from ≤ max_block_seen) then
        some (max max_block_seen env.current_block)
      else hwm
    (transfers, hwmAfter)

/-! ### Reconciliation report matching core (reconcile.py `reconcile`) -/

/-- An internal ledger record as seen by `reconcile` (the fields the
matching uses).  Python compares the recorded decimal strings; amounts
are modelled as their rational values, which does not affect the
partition structure. -/
structure InternalTx where
  tx_hash : String
  chain : String
  amount_usdc : Rat
  tx_type : String
deriving Repr, DecidableEq

/-- An entry of the report's `matched_txs` list: either a full match or
an amount mismatch. -/
inductive MatchEntry where
  | matched : String → Rat → MatchEntry
  | amount_mismatch : String → Rat → Rat → MatchEntry
deriving Repr, DecidableEq

/-- An entry of the report's `unmatched_internal` list. -/
structure UnmatchedInternal where
  tx_hash : String
  amount : Rat
  tx_type : String
deriving Repr, DecidableEq

/-- An entry of the report's `unmatched_onchain` list. -/
structure UnmatchedOnchain where
  tx_hash : String
  amount : Rat
  direction : String
  counterparty : String
deriving Repr, DecidableEq

/-- The per-chain part of the reconciliation report the claims are
about. -/
structure ChainReport where
  matched_txs : List MatchEntry
  unmatched_internal : List UnmatchedInternal
  unmatched_onchain : List UnmatchedOnchain
deriving Repr, DecidableEq

/-- One insertion into a Python dict modelled as an association list:
insertion order keeps the first occurrence of a key, the value is the
last write. -/
def dictInsert (d : List (String × OnchainTransfer)) (k : String)
    (v : OnchainTransfer) : List (String × OnchainTransfer) :=
  if d.any (fun p => p.1 == k) then
    d.map (fun p => if p.1 == k then (p.1, v) else p)
  else d ++ [(k, v)]

/-- reconcile.py `onchain_by_hash = {tx["tx_hash"]: tx for tx in onchain_txs}`. -/
def onchain_by_hash (txs : List OnchainTransfer) :
    List (String × OnchainTransfer) :=
  txs.foldl (fun d t => dictInsert d t.tx_hash t) []

/-- Dict lookup by key. -/
def dictLookup (d : List (String × OnchainTransfer)) (k : String) :
    Option OnchainTransfer :=
  (d.find? (fun p => p.1 == k)).map (fun p => p.2)

/-- The matching section of reconcile.py `reconcile` for one chain:
classify each internal record of the chain against the on-chain dict
(matched on equal amount, amount mismatch otherwise, unmatched when the
hash is absent on-chain), and list every on-chain hash absent from the
internal records as unmatched on-chain. -/
def reconcileChain (ck : String) (internal_txs : List InternalTx)
    (onchain_txs : List OnchainTransfer) : ChainReport :=
  let ob := onchain_by_hash onchain_txs
  let internal_chain := internal_txs.filter (fun t => t.chain == ck)
  let matched_txs := internal_chain.filterMap (fun t =>
    match dictLookup ob t.tx_hash with
    | some oc =>
      if t.amount_usdc == oc.amount_usdc then
        some (MatchEntry.matched t.tx_hash t.amount_usdc)
      else
        some (MatchEntry.amount_mismatch t.tx_hash t.amount_usdc oc.amount_usdc)
    | none => none)
  let unmatched_internal := internal_chain.filterMap (fun t =>
    match dictLookup ob t.tx_hash with
    | some _ => none
    | none => some ({ tx_hash := t.tx_hash, amount := t.amount_usdc,
                      tx_type := t.tx_type } : UnmatchedInternal))
  let unmatched_onchain := ob.filterMap (fun p =>
    if internal_chain.any (fun t => t.tx_hash == p.1) then none
    else some ({ tx_hash := p.1, amount := p.2.amount_usdc,
                 direction := p.2.direction,
                 counterparty :=
                   if p.2.direction == "outgoing" then p.2.receiver
                   else p.2.sender } : UnmatchedOnchain))
  { matched_txs := matched_txs, unmatched_internal := unmatched_internal,
    unmatched_onchain := unmatched_onchain }

/-! ### Incoming-payment auto-matching (treasury.py) -/

/-- Python `str.lower()` / SQL `LOWER(...)`, modelled character-wise so
it is kernel-computable (the addresses involved are ASCII). -/
def pyLower (s : String) : String := String.mk (s.data.map Char.toLower)

/-- An invoice as seen by the auto-matcher (the fields it reads). -/
structure Invoice where
  invoice_number : String
  invoice_type : String
  status : String
  chain : String
  counterparty_address : String
  total_usdc : Rat
  paid_usdc : Rat
  remaining_usdc : Rat
deriving Repr, DecidableEq

/-- `inv["status"] in ("pending", "partial")`. -/
def invoiceOpen (inv : Invoice) : Bool :=
  inv.status == "pending" || inv.status == "partial"

/-- `amount == remaining or abs(amount - remaining) < Decimal("0.01")`. -/
def invoiceAmountMatch (amount : Rat) (inv : Invoice) : Bool :=
  amount == inv.remaining_usdc ||
    |amount - inv.remaining_usdc| < (1 : Rat) / 100

/-- The first matching pass of `_match_incoming_to_invoice`: open
status, same chain, same (case-insensitive) sender address, amount
within tolerance of the remaining amount. -/
def invoiceExactPred (sender : String) (amount : Rat) (chain : String)
    (inv : Invoice) : Bool :=
  invoiceOpen inv && inv.chain == chain &&
  pyLower inv.counterparty_address == pyLower sender &&
  invoiceAmountMatch amount inv

/-- The second ("fuzzy") pass: open status and same sender address only
— the chain is not checked. -/
def invoiceFuzzyPred (sender : String) (inv : Invoice) : Bool :=
  invoiceOpen inv && pyLower inv.counterparty_address == pyLower sender

/-- treasury.py `_match_incoming_to_invoice`: over receivable invoices,
return the first invoice passing the exact pass, else the first passing
the fuzzy pass. -/
def _match_incoming_to_invoice (invoices : List Invoice) (sender : String)
    (amount_usdc : Rat) (chain : String) : Option Invoice :=
  let invs := invoices.filter (fun i => i.invoice_type == "receivable")
  match invs.find? (invoiceExactPred sender amount_usdc chain) with
  | some inv => some inv
  | none => invs.find? (invoiceFuzzyPred sender)

/-- A row of the `transactions` table as read back by
`db.get_transactions` for the already-recorded check. -/
structure LedgerTx where
  tx_hash : String
  from_address : String
  to_address : String
deriving Repr, DecidableEq

/-- db.py `get_transactions(counterparty=sender, limit=None)`:
rows whose lowercased from/to address equals the lowercased
counterparty. -/
def get_transactions_by_counterparty (ledger : List LedgerTx)
    (counterparty : String) : List LedgerTx :=
  ledger.filter (fun t =>
    pyLower t.from_address == pyLower counterparty ||
    pyLower t.to_address == pyLower counterparty)

/-- One entry of `watch_incoming`'s result list. -/
structure IncomingTransfer where
  tx_hash : String
  chain : String
  sender : String
  amount_usdc : Rat
  block_number : Nat
  already_recorded : Bool
  matched_invoice : Option String
deriving Repr, DecidableEq

/-- Chain responses consumed by one `watch_incoming` scan of one chain:
head, decimals, the event history of transfers to the wallet, and
whether the scan body raises. -/
structure WatchEnv where
  current_block : Nat
  decimals : Nat
  incomingEvents : List TransferEvent
  scanFails : Bool

/-- Database writes performed by `watch_incoming`: an invoice payment
append (via `_record_incoming_payment`) or an uncategorized incoming
ledger record (via `record_transaction`). -/
inductive WatchWrite where
  | payment : String → String → Rat → WatchWrite
  | uncategorized : String → Rat → WatchWrite
deriving Repr, DecidableEq

/-- treasury.py `watch_incoming`, one chain: pick the scan start (the
explicit override, else mark + 1, else a 10,000-block lookback), list
the incoming transfer events from there, flag the ones already in the
ledger, auto-match the new ones against open receivable invoices
(recording a payment or an uncategorized transfer), and set the mark to
the highest event block when it exceeds the scan start.  A raising scan
body is logged and skipped whole, inner writes and the mark update
included.  Returns the entries, the stored mark after the call and the
database writes. -/
def watch_incoming_chain (env : WatchEnv) (ck wallet : String)
    (invoices : List Invoice) (ledger : List LedgerTx)
    (hwm : Option Nat) (from_block : Option Nat) :
    List IncomingTransfer × Option Nat × List WatchWrite :=
  let scan_from : Nat :=
    match from_block with
    | some fb => fb
    | none =>
      match hwm with
      | some h => h + 1
      | none => env.current_block - 10000
  if env.scanFails then
    ([], hwm, [])
  else
    let events := env.incomingEvents.filter (fun e =>
      scan_from ≤ e.blockNumber && e.receiver == wallet)
    let entries := events.map (fun e =>
      let amount_usdc := (e.value : Rat) / (10 : Rat) ^ env.decimals
      let existing := get_transactions_by_counterparty ledger e.sender
      let already_recorded := existing.any (fun t => t.tx_hash == e.tx_hash)
      let matched :=
        if already_recorded then none
        else _match_incoming_to_invoice invoices e.sender amount_usdc ck
      ({ tx_hash := e.tx_hash, chain := ck, sender := e.sender,
         amount_usdc := amount_usdc, block_number := e.blockNumber,
         already_recorded := already_recorded,
         matched_invoice := matched.map (fun i => i.invoice_number) },
       if already_recorded then (none : Option WatchWrite)
       else
         match matched with
         | some inv => some (.payment inv.invoice_number e.tx_hash amount_usdc)
         | none => some (.uncategorized e.tx_hash amount_usdc)))
    let max_block := (events.map (fun e => e.blockNumber)).foldl max scan_from
    let hwmAfter :=
      if scan_from < max_block then some max_block else hwm
    (entries.map (fun p => p.1), hwmAfter, entries.filterMap (fun p => p.2))

/-! ### Concrete instances for witnesses and counterexamples -/

/-- Is this effect a `record_transaction` write? -/
def Effect.isRecordTx : Effect → Bool
  | .recordTx _ => true
  | _ => false

/-- Is this effect an `insert_bridge` write? -/
def Effect.isInsertBridge : Effect → Bool
  | .insertBridge _ => true
  | _ => false

/-- A destination chain whose `usedNonces` view reports every nonce as
already consumed. -/
def chainEnvUsed : ChainEnv :=
  { keccak := fun _ => List.replicate 32 1,
    usedNonces := fun _ => .ok 1,
    receiptStatus := 1, txHash := "0xmint", blockNumber := 77, gasUsed := 900 }

/-- A destination chain whose `usedNonces` query raises. -/
def chainEnvErr : ChainEnv :=
  { keccak := fun _ => List.replicate 32 1,
    usedNonces := fun _ => .error "rpc down",
    receiptStatus := 1, txHash := "0xmint", blockNumber := 77, gasUsed := 900 }

/-- A completed bridge record. -/
def exCompleted : BridgeRecord :=
  { burn_tx_hash := "0xburn", source_chain := "base", dest_chain := "arb",
    amount_usdc := 100, recipient := "0xR", message_hash := none,
    message_bytes := some (List.replicate 32 7),
    attestation := some (List.replicate 65 9),
    mint_tx_hash := some "0xmint", status := "completed" }

/-- A bridge record with a stored attestation, mint still pending. -/
def exAttested : BridgeRecord :=
  { burn_tx_hash := "0xburn2", source_chain := "base", dest_chain := "arb",
    amount_usdc := 100, recipient := "0xR", message_hash := none,
    message_bytes := some (List.replicate 32 7),
    attestation := some (List.replicate 65 9),
    mint_tx_hash := none, status := "attestation_received" }

/-- A store holding the two sample records. -/
def exStore : BridgeStore := [exCompleted, exAttested]

/-- A resume environment over the consumed-nonce destination chain. -/
def exCompleteEnv : CompleteEnv :=
  { pollV2 := none, pollV1 := none, chain := chainEnvUsed }

/-- Scan environment for the all-queries-fail counterexample: head at
block 100, both event queries raise. -/
def scanEnvAllFail : ScanEnv :=
  { current_block := 100, decimals := 6, outgoingEvents := [],
    incomingEvents := [], outgoingFails := true, incomingFails := true }

/-- An incoming transfer event at block 50. -/
def evBlock50 : TransferEvent :=
  { tx_hash := "0xaaa", sender := "0xS", receiver := "0xW",
    value := 7000000, blockNumber := 50 }

/-- Watch environment for the override counterexample: head at 100, one
old event at block 50. -/
def watchEnvOld : WatchEnv :=
  { current_block := 100, decimals := 6, incomingEvents := [evBlock50],
    scanFails := false }

/-- An open receivable invoice on chain `base` from sender `0xS`. -/
def invBase : Invoice :=
  { invoice_number := "INV-1", invoice_type := "receivable",
    status := "pending", chain := "base", counterparty_address := "0xS",
    total_usdc := 50, paid_usdc := 0, remaining_usdc := 50 }

/-- Source-chain environment where everything succeeds and the wallet
already has a sufficient allowance. -/
def bridgeEnvOk : BridgeEnv :=
  { decimals := 6, balance := 500000000, allowance := 1000000000,
    feeQuery := none, approveStatus := 1, burnStatus := 1,
    burnTxHash := "0xburn3", burnBlockNumber := 1000, burnGasUsed := 80000,
    pollV2 := none, dest := chainEnvUsed }

/-- Source-chain environment where the burn transaction reverts. -/
def bridgeEnvBurnRevert : BridgeEnv :=
  { bridgeEnvOk with burnStatus := 0 }

/-- Scan environment with the outgoing query failing, the incoming one
succeeding. -/
def scanEnvOutFail : ScanEnv :=
  { current_block := 100, decimals := 6, outgoingEvents := [],
    incomingEvents := [evBlock50], outgoingFails := true,
    incomingFails := false }

/-- An internal ledger record on chain `base`. -/
def exInternalA : InternalTx :=
  { tx_hash := "0xa", chain := "base", amount_usdc := 7,
    tx_type := "transfer" }

/-- An on-chain transfer matching `exInternalA`. -/
def exOnA : OnchainTransfer :=
  { tx_hash := "0xa", chain := "base", direction := "outgoing",
    sender := "0xW", receiver := "0xB", amount_usdc := 7,
    amount_raw := 7000000, block_number := 90 }

/-- An on-chain transfer with no internal record. -/
def exOnB : OnchainTransfer :=
  { tx_hash := "0xb", chain := "base", direction := "incoming",
    sender := "0xC", receiver := "0xW", amount_usdc := 9,
    amount_raw := 9000000, block_number := 95 }

/-! ## Theorems -/

/-- A left fold of `max` never drops below its start. -/
theorem le_foldl_max (l : List Nat) (s : Nat) : s ≤ l.foldl max s := by
  induction l generalizing s with
  | nil => exact le_refl s
  | cons a l ih => exact le_trans (le_max_left s a) (ih (max s a))

/-- `receive_message` when the derived nonce is reported consumed:
`AlreadyCompleted`, and the only effect is the `usedNonces` query. -/
theorem receive_message_nonce_used (env : ChainEnv) (d : String)
    (msg att nh : List Nat) (r : Nat)
    (hx : _extract_nonce_from_message env.keccak msg = some nh)
    (hq : env.usedNonces nh = .ok r) (hr : r ≠ 0) :
    receive_message env d msg att =
      (.error .alreadyCompleted, [.rpc "usedNonces"]) := by
  simp [receive_message, hx, is_nonce_used, hq, hr]

/-- C1: for a bridge record whose status is `completed`, `complete_bridge`
and `retry_mint` perform no effects and no store mutation, return the
record itself, and a second call returns the same result. -/
theorem complete_and_retry_idempotent_on_completed
    (cenv : CompleteEnv) (renv : ChainEnv) (store : BridgeStore)
    (burn : String) (b : BridgeRecord)
    (hget : get_bridge store burn = some b) (hst : b.status = "completed") :
    complete_bridge cenv store burn = (.ok b, [], store) ∧
    retry_mint renv store burn = (.ok b, [], store) ∧
    complete_bridge cenv (complete_bridge cenv store burn).2.2 burn =
      complete_bridge cenv store burn ∧
    retry_mint renv (retry_mint renv store burn).2.2 burn =
      retry_mint renv store burn := by
  have h1 : complete_bridge cenv store burn = (.ok b, [], store) := by
    simp [complete_bridge, hget, hst]
  have h2 : retry_mint renv store burn = (.ok b, [], store) := by
    simp [retry_mint, hget, hst]
  exact ⟨h1, h2, by rw [h1]; exact h1, by rw [h2]; exact h2⟩

/-- Witness for C1: the sample store's completed record. -/
theorem complete_and_retry_idempotent_on_completed_witness :
    get_bridge exStore "0xburn" = some exCompleted ∧
    exCompleted.status = "completed" ∧
    complete_bridge exCompleteEnv exStore "0xburn" =
      (.ok exCompleted, [], exStore) :=
  ⟨rfl, rfl,
   (complete_and_retry_idempotent_on_completed exCompleteEnv chainEnvUsed
     exStore "0xburn" exCompleted rfl rfl).1⟩

/-- C2: when the destination chain reports the nonce derived from the
message bytes as already consumed, the mint attempt — directly via
`receive_message`, or via `complete_bridge` / `retry_mint` on a record
with a stored attestation — fails with `AlreadyCompleted`; the only
effect is the `usedNonces` query, so no mint transaction is built,
signed or submitted, and the store is not mutated. -/
theorem mint_already_consumed_rejected_without_submission
    (cenv : CompleteEnv) (store : BridgeStore) (burn d : String)
    (b : BridgeRecord) (msg att nh : List Nat) (r : Nat)
    (hget : get_bridge store burn = some b)
    (hst : b.status ≠ "completed")
    (hatt : b.attestation = some att)
    (hmsg : b.message_bytes = some msg)
    (hx : _extract_nonce_from_message cenv.chain.keccak msg = some nh)
    (hq : cenv.chain.usedNonces nh = .ok r) (hr : r ≠ 0) :
    receive_message cenv.chain d msg att =
      (.error .alreadyCompleted, [.rpc "usedNonces"]) ∧
    complete_bridge cenv store burn =
      (.error .alreadyCompleted, [.rpc "usedNonces"], store) ∧
    retry_mint cenv.chain store burn =
      (.error .alreadyCompleted, [.rpc "usedNonces"], store) ∧
    (Effect.rpc "usedNonces").isSubmit = false := by
  have hrm := receive_message_nonce_used cenv.chain d msg att nh r hx hq hr
  have hrm2 := receive_message_nonce_used cenv.chain b.dest_chain msg att nh r hx hq hr
  refine ⟨hrm, ?_, ?_, rfl⟩
  · simp [complete_bridge, hget, hst, hatt, hmsg, hrm2]
  · simp [retry_mint, hget, hst, hatt, hmsg, hrm2]

/-- Witness for C2: the attested sample record against the
consumed-nonce destination chain. -/
theorem mint_already_consumed_rejected_without_submission_witness :
    get_bridge exStore "0xburn2" = some exAttested ∧
    exAttested.status ≠ "completed" ∧
    complete_bridge exCompleteEnv exStore "0xburn2" =
      (.error .alreadyCompleted, [.rpc "usedNonces"], exStore) :=
  ⟨rfl, by decide,
   (mint_already_consumed_rejected_without_submission exCompleteEnv exStore
     "0xburn2" "arb" exAttested (List.replicate 32 7) (List.replicate 65 9)
     (List.replicate 32 1) 1 rfl (by decide) rfl rfl rfl rfl
     (by decide)).2.1⟩

/-- C10: the idempotency guard fails open.  When the `usedNonces` query
raises, `is_nonce_used` reports `false` and the mint transaction is
submitted anyway; when the message is shorter than 20 bytes, no nonce is
derived, the check is skipped and the mint is submitted anyway. -/
theorem nonce_guard_fails_open (env : ChainEnv) (d : String)
    (msg att nh : List Nat) (s : String) :
    (_extract_nonce_from_message env.keccak msg = some nh →
      env.usedNonces nh = .error s →
      is_nonce_used env.usedNonces nh = false ∧
      (receive_message env d msg att).2 =
        [.rpc "usedNonces", .rpc "getBlockLatest", .rpc "getTransactionCount",
         .submitTx d "receiveMessage", .rpc "waitForTransactionReceipt"]) ∧
    (msg.length < 20 →
      _extract_nonce_from_message env.keccak msg = none ∧
      (receive_message env d msg att).2 =
        [.rpc "getBlockLatest", .rpc "getTransactionCount",
         .submitTx d "receiveMessage", .rpc "waitForTransactionReceipt"]) := by
  constructor
  · intro hx hq
    have hu : is_nonce_used env.usedNonces nh = false := by
      simp [is_nonce_used, hq]
    refine ⟨hu, ?_⟩
    by_cases hc : env.receiptStatus = 1 <;>
      simp [receive_message, hx, hu, hc]
  · intro hshort
    have hx : _extract_nonce_from_message env.keccak msg = none := by
      simp [_extract_nonce_from_message, hshort]
    refine ⟨hx, ?_⟩
    by_cases hc : env.receiptStatus = 1 <;>
      simp [receive_message, hx, hc]

/-- Witness for C10: a failing `usedNonces` query and a 3-byte message,
both followed by a submitted mint. -/
theorem nonce_guard_fails_open_witness :
    chainEnvErr.usedNonces (List.replicate 32 1) = .error "rpc down" ∧
    (receive_message chainEnvErr "arb" (List.replicate 32 7)
        (List.replicate 65 9)).2 =
      [.rpc "usedNonces", .rpc "getBlockLatest", .rpc "getTransactionCount",
       .submitTx "arb" "receiveMessage", .rpc "waitForTransactionReceipt"] ∧
    (receive_message chainEnvErr "arb" [1, 2, 3] (List.replicate 65 9)).2 =
      [.rpc "getBlockLatest", .rpc "getTransactionCount",
       .submitTx "arb" "receiveMessage", .rpc "waitForTransactionReceipt"] :=
  ⟨rfl,
   ((nonce_guard_fails_open chainEnvErr "arb" (List.replicate 32 7)
      (List.replicate 65 9) (List.replicate 32 1) "rpc down").1 rfl rfl).2,
   ((nonce_guard_fails_open chainEnvErr "arb" [1, 2, 3]
      (List.replicate 65 9) (List.replicate 32 1) "rpc down").2
      (by decide)).2⟩

/-- Closed form of the base-delay schedule when no poll is rate-limited:
starting from `s ≤ 60`, the i-th delay is `min (s * 2 ^ i) 60`. -/
theorem attestationDelaysAux_replicate_false (n : Nat) (s : Nat) (hs : s ≤ 60) :
    attestationDelaysAux s (List.replicate n false) =
      (List.range n).map (fun i => min (s * 2 ^ i) 60) := by
  induction n generalizing s with
  | zero => simp [attestationDelaysAux]
  | succ n ih =>
    rw [List.replicate_succ, List.range_succ_eq_map]
    simp only [attestationDelaysAux, if_neg (by simp : ¬(false = true)),
      List.map_cons, List.map_map]
    have h0 : min (s * 2 ^ 0) 60 = s := by
      simp [min_eq_left hs]
    rw [ih (min (s * 2) 60) (min_le_right _ _)]
    refine congrArg₂ _ h0.symm ?_
    refine List.map_congr_left (fun i _ => ?_)
    show min (min (s * 2) 60 * 2 ^ i) 60 = min (s * 2 ^ (Nat.succ i)) 60
    have hp : 0 < 2 ^ i := pow_pos (by norm_num) i
    rcases le_or_lt (s * 2) 60 with h | h
    · rw [min_eq_left h, pow_succ, ← Nat.mul_assoc, Nat.mul_comm (s * 2 ^ i) 2,
        ← Nat.mul_assoc, Nat.mul_comm 2 s]
    · have h3 : 60 ≤ 60 * 2 ^ i := Nat.le_mul_of_pos_right _ hp
      have h4 : s * 2 ≤ s * 2 * 2 ^ i := Nat.le_mul_of_pos_right _ hp
      have h5 : s * 2 * 2 ^ i = s * 2 ^ (Nat.succ i) := by
        rw [pow_succ, Nat.mul_comm (2 ^ i) 2, ← Nat.mul_assoc]
      rw [min_eq_right h.le, min_eq_right h3, ← h5,
        min_eq_right (le_trans h.le h4)]

/-- With only non-rate-limited failures the delay schedule is
non-decreasing. -/
theorem attestationDelaysAux_chain_of_all_false (outcomes : List Bool) :
    ∀ s : Nat, s ≤ 60 → (∀ b ∈ outcomes, b = false) →
    List.Chain' (· ≤ ·) (attestationDelaysAux s outcomes) := by
  induction outcomes with
  | nil => intro s _ _; simp [attestationDelaysAux]
  | cons rl rest ih =>
    intro s hs hall
    have hrl : rl = false := hall rl (List.mem_cons_self _ _)
    subst hrl
    have hrest : ∀ b ∈ rest, b = false := fun b hb =>
      hall b (List.mem_cons_of_mem _ hb)
    simp only [attestationDelaysAux, if_neg (by simp : ¬(false = true))]
    cases rest with
    | nil => simp [attestationDelaysAux]
    | cons b rest2 =>
      have hb : b = false := hrest b (List.mem_cons_self _ _)
      subst hb
      refine List.Chain'.cons ?_ (ih (min (s * 2) 60) (min_le_right _ _) hrest)
      simp only [attestationDelaysAux, if_neg (by simp : ¬(false = true))]
      omega

/-- Every base delay is at most 120 s. -/
theorem attestationDelaysAux_le_120 (outcomes : List Bool) :
    ∀ s : Nat, s ≤ 60 → ∀ x ∈ attestationDelaysAux s outcomes, x ≤ 120 := by
  induction outcomes with
  | nil => intro s _ x hx; simp [attestationDelaysAux] at hx
  | cons rl rest ih =>
    intro s hs x hx
    simp only [attestationDelaysAux, List.mem_cons] at hx
    rcases hx with hx | hx
    · subst hx
      cases rl <;> simp only [ite_true, ite_false, Bool.false_eq_true] <;> omega
    · exact ih (min ((if rl = true then min (s * 3) 120 else s) * 2) 60)
        (min_le_right _ _) x hx

/-- One unfolding step of `attestationDelaysAux`. -/
theorem attestationDelaysAux_cons (s : Nat) (rl : Bool) (rest : List Bool) :
    attestationDelaysAux s (rl :: rest) =
      (if rl = true then min (s * 3) 120 else s) ::
        attestationDelaysAux
          (min ((if rl = true then min (s * 3) 120 else s) * 2) 60) rest := rfl

/-- A rate-limited attempt waits at least `min (3 × previous delay) 120`. -/
theorem attestationDelaysAux_rate_limit (outcomes : List Bool) :
    ∀ (s k u v : Nat),
    outcomes.get? (k + 1) = some true →
    (attestationDelaysAux s outcomes).get? k = some u →
    (attestationDelaysAux s outcomes).get? (k + 1) = some v →
    min (3 * u) 120 ≤ v := by
  induction outcomes with
  | nil => intro s k u v h; simp at h
  | cons rl rest ih =>
    intro s k u v hrl hu hv
    cases k with
    | zero =>
      simp only [List.get?_cons_succ, List.get?_cons_zero] at hrl
      cases rest with
      | nil => simp at hrl
      | cons b rest2 =>
        simp only [List.get?_cons_zero, Option.some_inj] at hrl
        subst hrl
        rw [attestationDelaysAux_cons] at hu hv
        simp only [List.get?_cons_zero, Option.some_inj] at hu
        simp only [List.get?_cons_succ] at hv
        rw [attestationDelaysAux_cons] at hv
        simp only [List.get?_cons_zero, Option.some_inj, if_pos rfl] at hv
        subst hu; subst hv
        cases rl <;> simp <;> omega
    | succ k =>
      simp only [List.get?_cons_succ] at hrl
      rw [attestationDelaysAux_cons] at hu hv
      simp only [List.get?_cons_succ] at hu hv
      exact ih _ k u v hrl hu hv

/-- C5: backoff properties of `wait_for_attestation_v2`.  The first
delay with no rate limit is 2 s; with no rate-limited attempt the i-th
base delay is `min (2^(i+1)) 60` — doubling up to the 60 s cap, hence
non-decreasing; each actual wait is the base delay plus the sampled
jitter, lying in `[delay, 1.3 × delay]` when the jitter is in
`[0, 0.3 × delay]`; a rate-limited attempt waits at least
`min (3 × previous delay) 120`, and no delay ever exceeds 120 s. -/
theorem wait_for_attestation_v2_backoff :
    (∀ rest : List Bool, (attestationDelays (false :: rest)).head? = some 2) ∧
    (∀ n : Nat, attestationDelays (List.replicate n false) =
      (List.range n).map (fun i => min (2 ^ (i + 1)) 60)) ∧
    (∀ outcomes : List Bool, (∀ b ∈ outcomes, b = false) →
      List.Chain' (· ≤ ·) (attestationDelays outcomes)) ∧
    (∀ (d : Nat) (j : Rat), 0 ≤ j → j ≤ 3 / 10 * d →
      (d : Rat) ≤ sleepTime d j ∧ sleepTime d j ≤ 13 / 10 * d) ∧
    (∀ (outcomes : List Bool) (k u v : Nat),
      outcomes.get? (k + 1) = some true →
      (attestationDelays outcomes).get? k = some u →
      (attestationDelays outcomes).get? (k + 1) = some v →
      min (3 * u) 120 ≤ v) ∧
    (∀ (outcomes : List Bool) (x : Nat),
      x ∈ attestationDelays outcomes → x ≤ 120) := by
  refine ⟨?_, ?_, ?_, ?_, ?_, ?_⟩
  · intro rest
    simp [attestationDelays, attestationDelaysAux]
  · intro n
    rw [attestationDelays,
      attestationDelaysAux_replicate_false n 2 (by norm_num)]
    refine List.map_congr_left (fun i _ => ?_)
    rw [pow_succ, Nat.mul_comm (2 ^ i) 2]
  · intro outcomes hall
    exact attestationDelaysAux_chain_of_all_false outcomes 2 (by norm_num) hall
  · intro d j h0 h3
    constructor
    · simp [sleepTime]; linarith
    · simp only [sleepTime]
      have : (13 : Rat) / 10 * d = d + 3 / 10 * d := by ring
      rw [this]
      linarith
  · intro outcomes k u v h1 h2 h3
    exact attestationDelaysAux_rate_limit outcomes 2 k u v h1 h2 h3
  · intro outcomes x hx
    exact attestationDelaysAux_le_120 outcomes 2 (by norm_num) x hx

/-- Witness for C5: the schedule 2, 12, 24 for failure, rate limit,
failure. -/
theorem wait_for_attestation_v2_backoff_witness :
    (attestationDelays [false, true, false]).head? = some 2 ∧
    (2 : Rat) ≤ sleepTime 2 (1 / 2) ∧ sleepTime 2 (1 / 2) ≤ 13 / 10 * 2 ∧
    min (3 * 2) 120 ≤ 12 := by
  refine ⟨wait_for_attestation_v2_backoff.1 [true, false], ?_, ?_, ?_⟩
  · exact (wait_for_attestation_v2_backoff.2.2.2.1 2 (1 / 2) (by norm_num)
      (by norm_num)).1
  · exact (wait_for_attestation_v2_backoff.2.2.2.1 2 (1 / 2) (by norm_num)
      (by norm_num)).2
  · exact wait_for_attestation_v2_backoff.2.2.2.2.1 [false, true, false]
      0 2 12 (by decide) (by decide) (by decide)

/-- Counterexample to C3: with an explicit from-block override below the
stored mark, `watch_incoming` lowers the stored high-water mark — here
from 100 to 50 (the highest event block of the re-scanned old range). -/
theorem explicit_from_block_can_lower_mark :
    (watch_incoming_chain watchEnvOld "base" "0xW" [] [] (some 100)
        (some 10)).2.1 = some 50 ∧ 50 < 100 :=
  ⟨rfl, by norm_num⟩

/-- C3 (amended): for scans without an explicit from-block override, the
stored mark is non-decreasing across both `fetch_onchain_usdc_transfers`
and `watch_incoming`, every reported transfer lies strictly above the
stored mark, and in particular no transfer at or below the mark is ever
re-reported. -/
theorem scan_mark_monotone_without_override
    (env : ScanEnv) (ck : String) (h : Nat) (u : Bool)
    (wenv : WatchEnv) (wck wallet : String)
    (invoices : List Invoice) (ledger : List LedgerTx) :
    (∀ t ∈ (fetch_onchain_usdc_transfers env ck (some h) none u).1,
      h < t.block_number) ∧
    (∀ h2, (fetch_onchain_usdc_transfers env ck (some h) none u).2 = some h2 →
      h ≤ h2) ∧
    (∀ B, B ≤ h → ∀ t ∈ (fetch_onchain_usdc_transfers env ck (some h) none u).1,
      t.block_number ≠ B) ∧
    (∀ e ∈ (watch_incoming_chain wenv wck wallet invoices ledger
        (some h) none).1, h < e.block_number) ∧
    (∀ h2, (watch_incoming_chain wenv wck wallet invoices ledger
        (some h) none).2.1 = some h2 → h ≤ h2) := by
  have hfetch1 : ∀ t ∈ (fetch_onchain_usdc_transfers env ck (some h) none u).1,
      h < t.block_number := by
    intro t ht
    by_cases hc : h + 1 > env.current_block
    · simp [fetch_onchain_usdc_transfers, hc] at ht
    · simp only [fetch_onchain_usdc_transfers, if_neg hc,
        List.mem_append, List.mem_map] at ht
      rcases ht with ⟨e, he, rfl⟩ | ⟨e, he, rfl⟩ <;>
      · split_ifs at he
        · simp at he
        · simp only [List.mem_filter, decide_eq_true_eq] at he
          simpa [normalizeEvent] using he.2
  have hwatch1 : ∀ e ∈ (watch_incoming_chain wenv wck wallet invoices ledger
      (some h) none).1, h < e.block_number := by
    intro e he
    by_cases hf : wenv.scanFails
    · simp [watch_incoming_chain, hf] at he
    · simp only [watch_incoming_chain, hf, if_false, Bool.false_eq_true,
        List.map_map, List.mem_map, List.mem_filter, Function.comp,
        Bool.and_eq_true, decide_eq_true_eq] at he
      rcases he with ⟨ev, ⟨_, hblk, _⟩, rfl⟩
      simpa using hblk
  refine ⟨hfetch1, ?_, ?_, hwatch1, ?_⟩
  · intro h2 hh2
    by_cases hc : h + 1 > env.current_block
    · simp only [fetch_onchain_usdc_transfers, if_pos hc] at hh2
      simp only [Option.some_inj] at hh2
      omega
    · simp only [fetch_onchain_usdc_transfers, if_neg hc] at hh2
      by_cases hu2 : (u && decide (h + 1 ≤
          ((((if env.outgoingFails = true then []
              else env.outgoingEvents.filter fun e =>
                decide (h + 1 ≤ e.blockNumber)) ++
            (if env.incomingFails = true then []
              else env.incomingEvents.filter fun e =>
                decide (h + 1 ≤ e.blockNumber))).map
              fun e => e.blockNumber).foldl max (h + 1)))) = true
      · rw [if_pos hu2] at hh2
        simp only [Option.some_inj] at hh2
        have hle := le_foldl_max
          ((((if env.outgoingFails = true then []
              else env.outgoingEvents.filter fun e =>
                decide (h + 1 ≤ e.blockNumber)) ++
            (if env.incomingFails = true then []
              else env.incomingEvents.filter fun e =>
                decide (h + 1 ≤ e.blockNumber))).map
              fun e => e.blockNumber)) (h + 1)
        omega
      · rw [if_neg hu2] at hh2
        simp only [Option.some_inj] at hh2
        omega
  · intro B hB t ht
    have := hfetch1 t ht
    omega
  · intro h2 hh2
    by_cases hf : wenv.scanFails
    · simp only [watch_incoming_chain, if_pos hf, Option.some_inj] at hh2
      omega
    · simp only [watch_incoming_chain, if_neg hf] at hh2
      set mb := ((wenv.incomingEvents.filter fun e =>
        decide (h + 1 ≤ e.blockNumber) && e.receiver == wallet).map
          fun e => e.blockNumber).foldl max (h + 1) with hmb
      by_cases hlt : h + 1 < mb
      · rw [if_pos hlt] at hh2
        simp only [Option.some_inj] at hh2
        omega
      · rw [if_neg hlt] at hh2
        simp only [Option.some_inj] at hh2
        omega

/-- Witness for C3 (amended): a scan on the all-fail environment keeps
the mark at or above 5. -/
theorem scan_mark_monotone_without_override_witness :
    (fetch_onchain_usdc_transfers scanEnvAllFail "base" (some 5) none
        true).2 = some 100 ∧ 5 ≤ 100 :=
  ⟨rfl,
   (scan_mark_monotone_without_override scanEnvAllFail "base" 5 true
     watchEnvOld "base" "0xW" [] []).2.1 100 rfl⟩

/-- Counterexample to C4: a scan in which both event queries fail still
advances the stored mark from 5 to the current head 100, past blocks
that were never successfully queried. -/
theorem mark_advances_when_all_queries_fail :
    fetch_onchain_usdc_transfers scanEnvAllFail "base" (some 5) none true =
      ([], some 100) ∧ scanEnvAllFail.outgoingFails = true ∧
      scanEnvAllFail.incomingFails = true ∧ 5 < 100 :=
  ⟨rfl, rfl, rfl, by norm_num⟩

/-- C4 (amended): an event-query failure on one direction is skipped and
the other direction's results are still returned (partial results, no
abort); but the stored mark advances to
`max (highest event block seen) (current head)` after every scan whose
start is at or below the head, regardless of query failures — in
particular a scan whose queries all failed still advances the mark to
the current head. -/
theorem scan_failures_skipped_mark_advances_to_head
    (env : ScanEnv) (ck : String) (h : Nat) (u : Bool) :
    (env.outgoingFails = true → env.incomingFails = false →
      h < env.current_block →
      (fetch_onchain_usdc_transfers env ck (some h) none u).1 =
        (env.incomingEvents.filter fun e => h + 1 ≤ e.blockNumber).map
          (normalizeEvent ck "incoming" env.decimals)) ∧
    (env.outgoingFails = true → env.incomingFails = true →
      h < env.current_block →
      fetch_onchain_usdc_transfers env ck (some h) none true =
        ([], some env.current_block)) := by
  constructor
  · intro hout hin hlt
    have hc : ¬(h + 1 > env.current_block) := by omega
    simp [fetch_onchain_usdc_transfers, hc, hout, hin]
  · intro hout hin hlt
    have hc : ¬(h + 1 > env.current_block) := by omega
    have hmax : max (h + 1) env.current_block = env.current_block :=
      max_eq_right (by omega)
    simp [fetch_onchain_usdc_transfers, hc, hout, hin, hmax]

/-- Witness for C4 (amended): the one-direction failure returns the
incoming event at block 50; the all-fail scan advances the mark to the
head. -/
theorem scan_failures_skipped_mark_advances_to_head_witness :
    (fetch_onchain_usdc_transfers scanEnvOutFail "base" (some 5) none
        true).1 =
      [normalizeEvent "base" "incoming" 6 evBlock50] ∧
    fetch_onchain_usdc_transfers scanEnvAllFail "base" (some 5) none true =
      ([], some 100) :=
  ⟨by
    have := (scan_failures_skipped_mark_advances_to_head scanEnvOutFail
      "base" 5 true).1 rfl rfl (by decide)
    simpa using this,
   (scan_failures_skipped_mark_advances_to_head scanEnvAllFail
     "base" 5 true).2 rfl rfl (by decide)⟩

/-- Python truncation of a non-positive value is non-positive. -/
theorem pyInt_nonpos (q : Rat) (h : q ≤ 0) : pyInt q ≤ 0 := by
  unfold pyInt
  split_ifs with h0
  · have hq : q = 0 := le_antisymm h h0
    simp [hq]
  · exact Int.ceil_le.mpr (by exact_mod_cast h)

/-- `bridge_usdc_post_burn` never raises: every mint failure is caught
and reported inside the returned result dictionary. -/
theorem bridge_usdc_post_burn_ne_error (env : BridgeEnv)
    (store : BridgeStore) (source_chain dest_chain : String)
    (amount_usdc : Rat) (recipient : String) (fast : Bool)
    (max_fee : Int) (err : BridgeError) :
    (bridge_usdc_post_burn env store source_chain dest_chain amount_usdc
      recipient fast max_fee).1 ≠ .error err := by
  unfold bridge_usdc_post_burn
  cases hp : env.pollV2 with
  | none => simp
  | some pair =>
    cases pair with
    | mk m2 a2 =>
      cases hrm : (receive_message env.dest dest_chain m2 a2).1 with
      | error e => simp [hrm]
      | ok mint => simp [hrm]

/-- Counterexample to C6: `bridge_usdc` with amount 0 (a non-positive
amount) does not fail with a validation error — it runs to a normal
result, contacts the chain and submits the burn transaction. -/
theorem nonpositive_amount_not_rejected :
    ((bridge_usdc bridgeEnvOk [] "base" "arb" 0 "0xR" false 0).1 ≠
      .error .validation) ∧
    ((bridge_usdc bridgeEnvOk [] "base" "arb" 0 "0xR" false 0).1 ≠
      .error .insufficientBalance) ∧
    (bridge_usdc bridgeEnvOk [] "base" "arb" 0 "0xR" false 0).2.1.any
      Effect.isSubmit = true := by
  have h0 : pyInt 0 = 0 := by norm_num [pyInt]
  refine ⟨?_, ?_, ?_⟩ <;>
    simp [bridge_usdc, bridgeEnvOk, h0, bridge_usdc_post_burn,
      insert_bridge, approvalEffects, burnEffects, Effect.isSubmit]

/-- C6 (amended): `source != dest` is validated and rejected before any
network call (empty effect trace, untouched store); but `amount > 0` is
not validated — for a non-positive amount the balance check passes
(balance ≥ 0 ≥ scaled amount) and the flow proceeds to contact the
chain, never raising a validation or insufficient-balance error. -/
theorem bridge_usdc_validation (env : BridgeEnv) (store : BridgeStore)
    (source_chain dest_chain : String) (amount_usdc : Rat)
    (recipient : String) (fast : Bool) (max_fee : Int) :
    (source_chain = dest_chain →
      bridge_usdc env store source_chain dest_chain amount_usdc recipient
        fast max_fee = (.error .validation, [], store)) ∧
    (source_chain ≠ dest_chain → amount_usdc ≤ 0 →
      (bridge_usdc env store source_chain dest_chain amount_usdc recipient
        fast max_fee).1 ≠ .error .validation ∧
      (bridge_usdc env store source_chain dest_chain amount_usdc recipient
        fast max_fee).1 ≠ .error .insufficientBalance ∧
      Effect.rpc "decimals" ∈ (bridge_usdc env store source_chain dest_chain
        amount_usdc recipient fast max_fee).2.1) := by
  constructor
  · intro heq
    simp [bridge_usdc, heq]
  · intro hne hle
    have h10 : (0 : Rat) ≤ (10 : Rat) ^ env.decimals := by positivity
    have hq : amount_usdc * (10 : Rat) ^ env.decimals ≤ 0 := by nlinarith
    have hraw : pyInt (amount_usdc * (10 : Rat) ^ env.decimals) ≤ 0 :=
      pyInt_nonpos _ hq
    have hbal : ¬((env.balance : Int) <
        pyInt (amount_usdc * (10 : Rat) ^ env.decimals)) := by
      have hb : (0 : Int) ≤ (env.balance : Int) := Int.natCast_nonneg _
      omega
    have hbeq : (source_chain == dest_chain) = false := by
      simp [hne]
    refine ⟨?_, ?_, ?_⟩ <;>
    · simp only [bridge_usdc, hbeq, Bool.false_eq_true, if_false,
        if_neg hbal]
      repeat' split
      all_goals
        simp_all [bridge_usdc_post_burn_ne_error, approvalEffects,
          burnEffects]

/-- Witness for C6 (amended): same-chain call rejected untouched; the
amount-0 call on the sample environment proceeds. -/
theorem bridge_usdc_validation_witness :
    bridge_usdc bridgeEnvOk [] "base" "base" 5 "0xR" false 0 =
      (.error .validation, [], []) ∧
    Effect.rpc "decimals" ∈
      (bridge_usdc bridgeEnvOk [] "base" "arb" 0 "0xR" false 0).2.1 :=
  ⟨(bridge_usdc_validation bridgeEnvOk [] "base" "base" 5 "0xR"
      false 0).1 rfl,
   ((bridge_usdc_validation bridgeEnvOk [] "base" "arb" 0 "0xR"
      false 0).2 (by decide) (by norm_num)).2.2⟩

/-- Counterexample to C7: when the burn transaction reverts,
`bridge_usdc` raises `ChainError` and creates no `BridgeRecord`, but —
contrary to the claim — writes no failed `TransactionRecord` either: the
effect trace contains no ledger write at all. -/
theorem burn_revert_writes_no_failed_record :
    (bridge_usdc bridgeEnvBurnRevert [] "base" "arb" 5 "0xR" false 0).1 =
      .error .burnFailed ∧
    (bridge_usdc bridgeEnvBurnRevert [] "base" "arb" 5 "0xR" false
      0).2.1.all (fun e => !(e.isRecordTx || e.isInsertBridge)) = true ∧
    (bridge_usdc bridgeEnvBurnRevert [] "base" "arb" 5 "0xR" false
      0).2.2 = [] := by
  have h5 : pyInt ((5 : Rat) * (10 : Rat) ^ (6 : Nat)) = 5000000 := by
    norm_num [pyInt]
  refine ⟨?_, ?_, ?_⟩ <;>
    simp [bridge_usdc, bridgeEnvBurnRevert, bridgeEnvOk, h5, burnEffects,
      Effect.isRecordTx, Effect.isInsertBridge]

/-- C7 (amended): if the approval or the burn transaction reverts,
`bridge_usdc` fails with the corresponding `ChainError`, the store is
untouched (no `BridgeRecord` to resume), and no `TransactionRecord` of
any status is written for the reverted leg. -/
theorem revert_chain_error_no_bridge_record_no_tx_record
    (env : BridgeEnv) (store : BridgeStore)
    (source_chain dest_chain : String) (amount_usdc : Rat)
    (recipient : String) (fast : Bool) (max_fee : Int)
    (hne : source_chain ≠ dest_chain)
    (hbal : ¬((env.balance : Int) <
      pyInt (amount_usdc * (10 : Rat) ^ env.decimals))) :
    (((env.allowance : Int) <
        pyInt (amount_usdc * (10 : Rat) ^ env.decimals)) →
      env.approveStatus ≠ 1 →
      (bridge_usdc env store source_chain dest_chain amount_usdc recipient
        fast max_fee).1 = .error .approvalFailed ∧
      (bridge_usdc env store source_chain dest_chain amount_usdc recipient
        fast max_fee).2.2 = store ∧
      (bridge_usdc env store source_chain dest_chain amount_usdc recipient
        fast max_fee).2.1.all
        (fun e => !(e.isRecordTx || e.isInsertBridge)) = true) ∧
    ((((env.allowance : Int) <
        pyInt (amount_usdc * (10 : Rat) ^ env.decimals)) →
        env.approveStatus = 1) →
      env.burnStatus ≠ 1 →
      (bridge_usdc env store source_chain dest_chain amount_usdc recipient
        fast max_fee).1 = .error .burnFailed ∧
      (bridge_usdc env store source_chain dest_chain amount_usdc recipient
        fast max_fee).2.2 = store ∧
      (bridge_usdc env store source_chain dest_chain amount_usdc recipient
        fast max_fee).2.1.all
        (fun e => !(e.isRecordTx || e.isInsertBridge)) = true) := by
  have hbeq : (source_chain == dest_chain) = false := by simp [hne]
  constructor
  · intro hallow happrove
    have hst : (env.approveStatus == 1) = false := by simp [happrove]
    refine ⟨?_, ?_, ?_⟩ <;>
    · simp only [bridge_usdc, hbeq, Bool.false_eq_true, if_false,
        if_neg hbal, if_pos hallow, hst]
      repeat' split
      all_goals
        simp_all [Effect.isRecordTx, Effect.isInsertBridge,
          approvalEffects, burnEffects, List.all_append]
      all_goals
        rintro x - (rfl | rfl | rfl) <;> simp
  · intro happrove hburn
    have hbn : (env.burnStatus != 1) = true := by simp [hburn]
    refine ⟨?_, ?_, ?_⟩ <;>
    · simp only [bridge_usdc, hbeq, Bool.false_eq_true, if_false,
        if_neg hbal, hbn]
      repeat' split
      all_goals
        simp_all [Effect.isRecordTx, Effect.isInsertBridge,
          approvalEffects, burnEffects, List.all_append]
      all_goals
        rintro x - (rfl | rfl | rfl) <;> simp

/-- Witness for C7 (amended): the burn-revert environment. -/
theorem revert_chain_error_no_bridge_record_no_tx_record_witness :
    (bridge_usdc bridgeEnvBurnRevert [] "base" "arb" 5 "0xR" false 0).1 =
      .error .burnFailed ∧
    (bridge_usdc bridgeEnvBurnRevert [] "base" "arb" 5 "0xR" false
      0).2.2 = [] :=
  ⟨((revert_chain_error_no_bridge_record_no_tx_record bridgeEnvBurnRevert
      [] "base" "arb" 5 "0xR" false 0 (by decide)
      (by norm_num [pyInt, bridgeEnvBurnRevert, bridgeEnvOk])).2
      (fun _ => rfl) (by decide)).1,
   ((revert_chain_error_no_bridge_record_no_tx_record bridgeEnvBurnRevert
      [] "base" "arb" 5 "0xR" false 0 (by decide)
      (by norm_num [pyInt, bridgeEnvBurnRevert, bridgeEnvOk])).2
      (fun _ => rfl) (by decide)).2.1⟩

/-- Counterexample to C9: the fuzzy fallback pass does not check the
chain — an incoming transfer on chain `arb` is matched to an open
receivable invoice on chain `base`. -/
theorem fuzzy_fallback_matches_cross_chain :
    _match_incoming_to_invoice [invBase] "0xS" 7 "arb" = some invBase ∧
    invBase.chain ≠ "arb" :=
  ⟨by decide, by decide⟩

/-- C9 (amended): any invoice returned by the auto-matcher is a
receivable, open (`pending`/`partial`) invoice whose counterparty
address equals the sender case-insensitively; whenever some invoice
satisfies the full same-chain amount-tolerance test, the returned one
does too (amount matches are preferred); but when no such invoice
exists, the fuzzy fallback matches any open receivable invoice from
that sender regardless of its chain. -/
theorem auto_match_scope (invoices : List Invoice) (sender : String)
    (amount_usdc : Rat) (chain : String) (inv : Invoice)
    (hm : _match_incoming_to_invoice invoices sender amount_usdc chain =
      some inv) :
    inv.invoice_type = "receivable" ∧
    (inv.status = "pending" ∨ inv.status = "partial") ∧
    pyLower inv.counterparty_address = pyLower sender ∧
    ((∃ i ∈ invoices, i.invoice_type = "receivable" ∧
        invoiceExactPred sender amount_usdc chain i = true) →
      inv.chain = chain ∧
      (amount_usdc = inv.remaining_usdc ∨
        |amount_usdc - inv.remaining_usdc| < 1 / 100)) := by
  simp only [_match_incoming_to_invoice] at hm
  cases hf1 : (invoices.filter
      (fun i => i.invoice_type == "receivable")).find?
      (invoiceExactPred sender amount_usdc chain) with
  | some j =>
    simp only [hf1, Option.some_inj] at hm
    subst hm
    have hp := List.find?_some hf1
    have hmem := List.mem_of_find?_eq_some hf1
    have htype : j.invoice_type = "receivable" := by
      have := (List.mem_filter.mp hmem).2
      simpa using this
    simp only [invoiceExactPred, invoiceOpen, invoiceAmountMatch,
      Bool.and_eq_true, Bool.or_eq_true, beq_iff_eq,
      decide_eq_true_eq] at hp
    exact ⟨htype, hp.1.1.1, hp.1.2, fun _ => ⟨hp.1.1.2, hp.2⟩⟩
  | none =>
    simp only [hf1] at hm
    have hp := List.find?_some hm
    have hmem := List.mem_of_find?_eq_some hm
    have htype : inv.invoice_type = "receivable" := by
      have := (List.mem_filter.mp hmem).2
      simpa using this
    simp only [invoiceFuzzyPred, invoiceOpen, Bool.and_eq_true,
      Bool.or_eq_true, beq_iff_eq] at hp
    refine ⟨htype, hp.1, hp.2, ?_⟩
    rintro ⟨i, hi, hitype, hipred⟩
    exfalso
    have hifilter : i ∈ invoices.filter
        (fun i => i.invoice_type == "receivable") :=
      List.mem_filter.mpr ⟨hi, by simp [hitype]⟩
    exact absurd hipred (by simpa using List.find?_eq_none.mp hf1 i hifilter)

/-- Witness for C9 (amended): the exact-amount match on the same
chain. -/
theorem auto_match_scope_witness :
    _match_incoming_to_invoice [invBase] "0xS" 50 "base" = some invBase ∧
    invBase.invoice_type = "receivable" ∧
    invBase.chain = "base" :=
  ⟨by decide, (auto_match_scope [invBase] "0xS" 50 "base" invBase
      (by decide)).1,
   ((auto_match_scope [invBase] "0xS" 50 "base" invBase (by decide)).2.2.2
      ⟨invBase, List.mem_singleton.mpr rfl, by decide, by decide⟩).1⟩

/-- Splitting a list through two complementary classifiers conserves
length. -/
theorem length_filterMap_partition {α β γ : Type} (l : List α)
    (f : α → Option β) (g : α → Option γ)
    (h : ∀ x, (f x).isSome ↔ (g x).isNone) :
    (l.filterMap f).length + (l.filterMap g).length = l.length := by
  induction l with
  | nil => simp
  | cons a l ih =>
    have ha := h a
    cases hf : f a with
    | none =>
      cases hg : g a with
      | none => exfalso; rw [hf, hg] at ha; simp at ha
      | some c =>
        simp only [List.filterMap_cons, hf, hg, List.length_cons]
        omega
    | some b =>
      cases hg : g a with
      | none =>
        simp only [List.filterMap_cons, hf, hg, List.length_cons]
        omega
      | some c => exfalso; rw [hf, hg] at ha; simp at ha

/-- The keys of `dictInsert`: unchanged when the key is present,
appended otherwise. -/
theorem dictInsert_keys (d : List (String × OnchainTransfer)) (k : String)
    (v : OnchainTransfer) :
    (dictInsert d k v).map Prod.fst =
      if d.any (fun p => p.1 == k) then d.map Prod.fst
      else d.map Prod.fst ++ [k] := by
  unfold dictInsert
  split_ifs with hd
  · simp only [List.map_map]
    refine List.map_congr_left (fun p _ => ?_)
    by_cases hp : (p.1 == k) = true <;> simp [Function.comp, hp]
  · simp

/-- Key membership in the dict built by the fold. -/
theorem mem_keys_foldl (txs : List OnchainTransfer) :
    ∀ (d : List (String × OnchainTransfer)) (h : String),
    (h ∈ (txs.foldl (fun d t => dictInsert d t.tx_hash t) d).map Prod.fst) ↔
      h ∈ d.map Prod.fst ∨ h ∈ txs.map (fun t => t.tx_hash) := by
  induction txs with
  | nil => intro d h; simp
  | cons t ts ih =>
    intro d h
    rw [List.foldl_cons, ih (dictInsert d t.tx_hash t) h, dictInsert_keys]
    by_cases hd : d.any (fun p => p.1 == t.tx_hash) = true
    · rw [if_pos hd]
      have hk : t.tx_hash ∈ d.map Prod.fst := by
        rcases List.any_eq_true.mp hd with ⟨p, hp, hpk⟩
        exact List.mem_map.mpr ⟨p, hp, by simpa using hpk⟩
      simp only [List.map_cons, List.mem_cons]
      constructor
      · rintro (hh | hh)
        · exact Or.inl hh
        · exact Or.inr (Or.inr hh)
      · rintro (hh | rfl | hh)
        · exact Or.inl hh
        · exact Or.inl hk
        · exact Or.inr hh
    · rw [if_neg hd]
      simp only [List.mem_append, List.mem_singleton, List.map_cons,
        List.mem_cons]
      tauto

/-- The dict's keys are distinct. -/
theorem nodup_keys_foldl (txs : List OnchainTransfer) :
    ∀ d, (d.map Prod.fst).Nodup →
    ((txs.foldl (fun d t => dictInsert d t.tx_hash t) d).map
      Prod.fst).Nodup := by
  induction txs with
  | nil => intro d hd; simpa using hd
  | cons t ts ih =>
    intro d hd
    rw [List.foldl_cons]
    refine ih _ ?_
    rw [dictInsert_keys]
    split_ifs with hdany
    · exact hd
    · rw [List.nodup_append]
      refine ⟨hd, List.nodup_singleton _, ?_⟩
      intro a ha hb
      rcases List.mem_map.mp ha with ⟨p, hp, hpa⟩
      have hab : a = t.tx_hash := by simpa using hb
      exact hdany (List.any_eq_true.mpr ⟨p, hp, by simp [hpa, hab]⟩)

/-- Key membership in `onchain_by_hash` is tx-hash membership. -/
theorem onchain_by_hash_keys (txs : List OnchainTransfer) (h : String) :
    h ∈ (onchain_by_hash txs).map Prod.fst ↔
      h ∈ txs.map (fun t => t.tx_hash) := by
  simpa [onchain_by_hash] using mem_keys_foldl txs [] h

/-- `onchain_by_hash` has distinct keys. -/
theorem onchain_by_hash_nodup (txs : List OnchainTransfer) :
    ((onchain_by_hash txs).map Prod.fst).Nodup := by
  simpa [onchain_by_hash] using nodup_keys_foldl txs [] (by simp)

/-- A `filterMap` whose output projects back to the input's projection
yields a sublist of projections. -/
theorem filterMap_map_fst_sublist {α β γ : Type} (d : List α)
    (f : α → Option β) (g : β → γ) (gp : α → γ)
    (h : ∀ p e, f p = some e → g e = gp p) :
    ((d.filterMap f).map g).Sublist (d.map gp) := by
  induction d with
  | nil => simp
  | cons p d ih =>
    cases hf : f p with
    | none =>
      simp only [List.filterMap_cons, hf, List.map_cons]
      exact ih.cons _
    | some e =>
      simp only [List.filterMap_cons, hf, List.map_cons]
      rw [h p e hf]
      exact ih.cons₂ _

/-- C8: the reconciliation report is a partition.  Every internal record
of the chain lands in exactly one of matched / amount-mismatch /
unmatched-internal (the bucket counts sum to the record count, and each
record's entry is present in the bucket its classification dictates),
every on-chain event whose tx hash is absent from the internal records
appears in unmatched-onchain, and the unmatched-onchain entries have
distinct hashes, all drawn from the scanned events and none present
internally. -/
theorem reconcile_partition (ck : String) (internal_txs : List InternalTx)
    (onchain_txs : List OnchainTransfer) :
    ((reconcileChain ck internal_txs onchain_txs).matched_txs.length +
      (reconcileChain ck internal_txs
        onchain_txs).unmatched_internal.length =
      (internal_txs.filter (fun t => t.chain == ck)).length) ∧
    (∀ t ∈ internal_txs.filter (fun t => t.chain == ck), ∀ oc,
      dictLookup (onchain_by_hash onchain_txs) t.tx_hash = some oc →
      (t.amount_usdc = oc.amount_usdc →
        MatchEntry.matched t.tx_hash t.amount_usdc ∈
          (reconcileChain ck internal_txs onchain_txs).matched_txs) ∧
      (t.amount_usdc ≠ oc.amount_usdc →
        MatchEntry.amount_mismatch t.tx_hash t.amount_usdc oc.amount_usdc ∈
          (reconcileChain ck internal_txs onchain_txs).matched_txs)) ∧
    (∀ t ∈ internal_txs.filter (fun t => t.chain == ck),
      dictLookup (onchain_by_hash onchain_txs) t.tx_hash = none →
      ({ tx_hash := t.tx_hash, amount := t.amount_usdc,
         tx_type := t.tx_type } : UnmatchedInternal) ∈
        (reconcileChain ck internal_txs onchain_txs).unmatched_internal) ∧
    (∀ oc ∈ onchain_txs,
      (internal_txs.filter (fun t => t.chain == ck)).all
        (fun t => !(t.tx_hash == oc.tx_hash)) = true →
      ∃ e ∈ (reconcileChain ck internal_txs onchain_txs).unmatched_onchain,
        e.tx_hash = oc.tx_hash) ∧
    (((reconcileChain ck internal_txs onchain_txs).unmatched_onchain.map
      (fun e => e.tx_hash)).Nodup) ∧
    (∀ e ∈ (reconcileChain ck internal_txs onchain_txs).unmatched_onchain,
      e.tx_hash ∈ onchain_txs.map (fun t => t.tx_hash) ∧
      (internal_txs.filter (fun t => t.chain == ck)).all
        (fun t => !(t.tx_hash == e.tx_hash)) = true) := by
  refine ⟨?_, ?_, ?_, ?_, ?_, ?_⟩
  · simp only [reconcileChain]
    refine length_filterMap_partition _ _ _ (fun t => ?_)
    cases h : dictLookup (onchain_by_hash onchain_txs) t.tx_hash with
    | none => simp [h]
    | some oc =>
      simp only [h, Option.isSome_some, Option.isNone_none, iff_true]
      split <;> simp
  · intro t ht oc hoc
    constructor
    · intro heq
      simp only [reconcileChain]
      exact List.mem_filterMap.mpr ⟨t, ht, by simp [hoc, heq]⟩
    · intro hne
      simp only [reconcileChain]
      exact List.mem_filterMap.mpr ⟨t, ht, by simp [hoc, hne]⟩
  · intro t ht hnone
    simp only [reconcileChain]
    exact List.mem_filterMap.mpr ⟨t, ht, by simp [hnone]⟩
  · intro oc hoc hall
    have hk : oc.tx_hash ∈ (onchain_by_hash onchain_txs).map Prod.fst :=
      (onchain_by_hash_keys _ _).mpr (List.mem_map.mpr ⟨oc, hoc, rfl⟩)
    rcases List.mem_map.mp hk with ⟨p, hp, hp1⟩
    simp only [List.all_eq_true] at hall
    have hany : (internal_txs.filter (fun t => t.chain == ck)).any
        (fun t => t.tx_hash == p.1) = true → False := by
      intro hx
      rcases List.any_eq_true.mp hx with ⟨x, hxm, hxk⟩
      have := hall x hxm
      rw [hp1] at hxk
      simp [hxk] at this
    simp only [reconcileChain]
    refine ⟨⟨p.1, p.2.amount_usdc, p.2.direction,
      if p.2.direction == "outgoing" then p.2.receiver else p.2.sender⟩,
      List.mem_filterMap.mpr ⟨p, hp, ?_⟩, hp1⟩
    rw [if_neg hany]
  · simp only [reconcileChain]
    refine List.Nodup.sublist ?_ (onchain_by_hash_nodup onchain_txs)
    refine filterMap_map_fst_sublist _ _ _ _ (fun p e hf => ?_)
    by_cases hany : ((internal_txs.filter (fun t => t.chain == ck)).any
        fun t => t.tx_hash == p.1) = true
    · rw [if_pos hany] at hf
      exact absurd hf (by simp)
    · rw [if_neg hany] at hf
      rw [← Option.some_inj.mp hf]
  · intro e he
    simp only [reconcileChain] at he
    rcases List.mem_filterMap.mp he with ⟨p, hp, hfp⟩
    by_cases hany : ((internal_txs.filter (fun t => t.chain == ck)).any
        fun t => t.tx_hash == p.1) = true
    · rw [if_pos hany] at hfp
      exact absurd hfp (by simp)
    · rw [if_neg hany] at hfp
      have he2 : e.tx_hash = p.1 := by
        rw [← Option.some_inj.mp hfp]
      constructor
      · have hkey : p.1 ∈ (onchain_by_hash onchain_txs).map Prod.fst :=
          List.mem_map.mpr ⟨p, hp, rfl⟩
        rw [he2]
        exact (onchain_by_hash_keys _ _).mp hkey
      · simp only [List.all_eq_true]
        intro x hx
        have hxf : (x.tx_hash == p.1) = false := by
          by_contra hc
          exact hany (List.any_eq_true.mpr ⟨x, hx,
            by simpa using Bool.of_not_eq_false hc⟩)
        rw [he2]
        simp [hxf]

/-- Witness for C8: one matched record and one unreported on-chain
event. -/
theorem reconcile_partition_witness :
    MatchEntry.matched "0xa" 7 ∈
      (reconcileChain "base" [exInternalA] [exOnA, exOnB]).matched_txs ∧
    (∃ e ∈ (reconcileChain "base" [exInternalA]
        [exOnA, exOnB]).unmatched_onchain, e.tx_hash = "0xb") :=
  ⟨((reconcile_partition "base" [exInternalA] [exOnA, exOnB]).2.1
      exInternalA (by decide) exOnA (by decide)).1 rfl,
   (reconcile_partition "base" [exInternalA] [exOnA, exOnB]).2.2.2.1
      exOnB (by decide) (by decide)⟩

end USDCTreasury
